import Mathlib

/-!
Verification of the p4-utils `p4run.py` application runner.

The definitions below are a shallow embedding of `src/p4utils/p4run.py`:
  - JSON-ish scalar values with Python truthiness (used by the optional
    link fields of `AppRunner.parse_links`);
  - `formatLatency`, `parse_links` (lines 154-202);
  - the `AppRunner.__init__` topology check (lines 110-116);
  - the `run_app` sequencing (lines 205-232) as an event trace;
  - `program_hosts` (lines 287-329): gateway derivation, static ARP and
    route commands, subnet-mate ARP pre-seeding;
  - `program_switches` (lines 264-285), with `read_entries`/`add_entries`
    (which live in `p4utils.utils.utils`, outside this tree) modelled
    from the spec.
-/

instance {ε α : Type} [DecidableEq ε] [DecidableEq α] : DecidableEq (Except ε α) := fun x y =>
  match x, y with
  | .ok a, .ok b =>
      if h : a = b then isTrue (by rw [h])
      else isFalse (fun he => by cases he; exact h rfl)
  | .error a, .error b =>
      if h : a = b then isTrue (by rw [h])
      else isFalse (fun he => by cases he; exact h rfl)
  | .ok _, .error _ => isFalse (fun he => by cases he)
  | .error _, .ok _ => isFalse (fun he => by cases he)

/-- A JSON-ish scalar value as it appears in the topology description.
`vNull` models Python `None`. -/
inductive JVal where
  | vStr (s : String)
  | vNum (n : Int)
  | vBool (b : Bool)
  | vNull
deriving DecidableEq, Repr

/-- Python truthiness of a scalar: `""`, `0`, `False` and `None` are falsy.
This is the test `if link[2]:` etc. in `parse_links`. -/
def truthy : JVal → Bool
  | .vStr s => !s.isEmpty
  | .vNum n => n != 0
  | .vBool b => b
  | .vNull => false

/-- Python `str(v)` for the scalars above. -/
def pyStr : JVal → String
  | .vStr s => s
  | .vNum n => toString n
  | .vBool b => if b then "True" else "False"
  | .vNull => "None"

/-- `AppRunner.formatLatency` (p4run.py lines 154-159): a string passes
through unchanged, anything else is rendered and suffixed with "ms". -/
def formatLatency (latency : JVal) : String :=
  match latency with
  | .vStr s => s
  | v => pyStr v ++ "ms"

/-- The canonical link record built by `parse_links` (the `link_dict`
of p4run.py lines 179-184). `bandwidth = vNull` is the Python `None`
default, i.e. unset. -/
structure LinkDict where
  node1 : String
  node2 : String
  latency : String
  bandwidth : JVal
  weight : JVal
deriving DecidableEq, Repr

/-- An unparsed link tuple from the topology json: the two endpoint
names (`link[0]`, `link[1]`) and the optional positional fields
`link[2:]` (latency, bandwidth, weight). -/
structure RawLink where
  n0 : String
  n1 : String
  extra : List JVal
deriving DecidableEq, Repr

/-- Python strict comparison of strings: lexicographic on code points. -/
def charsLt : List Char → List Char → Bool
  | [], [] => false
  | [], _ :: _ => true
  | _ :: _, [] => false
  | a :: as, b :: bs => if a < b then true else if b < a then false else charsLt as bs

/-- Python `a < b` on strings. -/
def pyLt (a b : String) : Bool := charsLt a.data b.data

/-- The endpoint ordering step of `parse_links` (lines 175-177):
`if node_a > node_b: node_a, node_b = node_b, node_a`, with Python
string comparison, i.e. lexicographic on code points. -/
def orderEndpoints (node_a node_b : String) : String × String :=
  if pyLt node_b node_a then (node_b, node_a) else (node_a, node_b)

/-- The default link record of lines 179-184. -/
def defaultDict (node_a node_b : String) : LinkDict :=
  { node1 := node_a, node2 := node_b, latency := "0ms",
    bandwidth := .vNull, weight := .vNum 1 }

/-- Lines 187-189: `if len(link) > 2: if link[2]: link_dict[latency] = ...`. -/
def applyLatency (extra : List JVal) (d : LinkDict) : LinkDict :=
  match extra.get? 0 with
  | some v => if truthy v then { d with latency := formatLatency v } else d
  | none => d

/-- Lines 190-192: the optional bandwidth field. -/
def applyBandwidth (extra : List JVal) (d : LinkDict) : LinkDict :=
  match extra.get? 1 with
  | some v => if truthy v then { d with bandwidth := v } else d
  | none => d

/-- Lines 193-195: the optional weight field. -/
def applyWeight (extra : List JVal) (d : LinkDict) : LinkDict :=
  match extra.get? 2 with
  | some v => if truthy v then { d with weight := v } else d
  | none => d

/-- The record built for one link before the endpoint-kind check:
defaults, then the three conditional updates, in source order. -/
def mkLinkDict (node_a node_b : String) (extra : List JVal) : LinkDict :=
  applyWeight extra (applyBandwidth extra (applyLatency extra (defaultDict node_a node_b)))

/-- Lines 197-200: `if link_dict[node1][0] == h: assert link_dict[node2][0] == s`.
Indexing an empty identifier raises IndexError in Python; the assertion
failure carries the message built from `node2`. -/
def checkHosts (d : LinkDict) : Except String LinkDict :=
  match d.node1.data with
  | [] => .error "IndexError: string index out of range"
  | c1 :: _ =>
    if c1 = 'h' then
      match d.node2.data with
      | [] => .error "IndexError: string index out of range"
      | c2 :: _ =>
        if c2 = 's' then .ok d
        else .error ("Hosts should be connected to switches, not " ++ d.node2)
    else .ok d

/-- The body of the `parse_links` loop for a single link tuple. -/
def parseOne (link : RawLink) : Except String LinkDict :=
  let p := orderEndpoints link.n0 link.n1
  checkHosts (mkLinkDict p.1 p.2 link.extra)

/-- `AppRunner.parse_links` (lines 161-202): parse each tuple in order;
a failed assertion (or IndexError) aborts the whole parse. -/
def parse_links : List RawLink → Except String (List LinkDict)
  | [] => .ok []
  | l :: ls =>
    match parseOne l with
    | .error e => .error e
    | .ok d =>
      match parse_links ls with
      | .error e => .error e
      | .ok ds => .ok (d :: ds)

example : parseOne ⟨"s1", "h1", []⟩ =
    .ok ⟨"h1", "s1", "0ms", .vNull, .vNum 1⟩ := by decide

example : parseOne ⟨"h1", "h2", []⟩ =
    .error "Hosts should be connected to switches, not h2" := by decide

example : parseOne ⟨"h1", "s1", [.vStr "", .vNull, .vNum 5]⟩ =
    .ok ⟨"h1", "s1", "0ms", .vNull, .vNum 5⟩ := by decide

example : parseOne ⟨"h1", "s1", [.vNum 7]⟩ =
    .ok ⟨"h1", "s1", "7ms", .vNull, .vNum 1⟩ := by decide

example : parseOne ⟨"a1", "h2", []⟩ =
    .ok ⟨"a1", "h2", "0ms", .vNull, .vNum 1⟩ := by decide

lemma charsLt_asymm : ∀ (a b : List Char), charsLt a b = true → charsLt b a = false
  | [], [] => by simp [charsLt]
  | [], _ :: _ => by simp [charsLt]
  | _ :: _, [] => by simp [charsLt]
  | a :: as, b :: bs => by
    simp only [charsLt]
    intro h
    by_cases hab : a < b
    · have hba : ¬ b < a := lt_asymm hab
      simp [hab, hba]
    · by_cases hba : b < a
      · simp [hab, hba] at h
      · have heq : a = b := le_antisymm (le_of_not_lt hba) (le_of_not_lt hab)
        subst heq
        simp only [lt_irrefl, if_false] at h ⊢
        exact charsLt_asymm as bs h

lemma charsLt_conn : ∀ (a b : List Char), charsLt a b = false → charsLt b a = false → a = b
  | [], [] => by intro _ _; rfl
  | [], _ :: _ => by simp [charsLt]
  | _ :: _, [] => by simp [charsLt]
  | a :: as, b :: bs => by
    simp only [charsLt]
    intro h1 h2
    by_cases hab : a < b
    · simp [hab] at h1
    · by_cases hba : b < a
      · simp [hba] at h2
      · have heq : a = b := le_antisymm (le_of_not_lt hba) (le_of_not_lt hab)
        subst heq
        simp only [lt_irrefl, if_false] at h1 h2
        rw [charsLt_conn as bs h1 h2]

lemma pyLt_asymm (a b : String) (h : pyLt a b = true) : pyLt b a = false :=
  charsLt_asymm a.data b.data h

lemma pyLt_conn (a b : String) (h1 : pyLt a b = false) (h2 : pyLt b a = false) : a = b := by
  have hd := charsLt_conn a.data b.data h1 h2
  cases a with
  | mk da =>
    cases b with
    | mk db => simp only at hd; rw [hd]

lemma pyLt_irrefl (a : String) : pyLt a a = false := by
  cases h : pyLt a a
  · rfl
  · have hf := pyLt_asymm a a h
    rw [hf] at h
    simp at h

lemma orderEndpoints_comm (a b : String) : orderEndpoints a b = orderEndpoints b a := by
  unfold orderEndpoints
  by_cases h1 : pyLt b a = true
  · have h2 : pyLt a b = false := pyLt_asymm b a h1
    simp [h1, h2]
  · by_cases h2 : pyLt a b = true
    · simp [h1, h2]
    · have heq : a = b :=
        pyLt_conn a b (Bool.not_eq_true _ ▸ h2) (Bool.not_eq_true _ ▸ h1)
      subst heq
      rfl

lemma orderEndpoints_lt (a b : String) (h : pyLt a b = true) :
    orderEndpoints a b = (a, b) := by
  unfold orderEndpoints
  simp [pyLt_asymm a b h]

lemma orderEndpoints_gt (a b : String) (h : pyLt b a = true) :
    orderEndpoints a b = (b, a) := by
  unfold orderEndpoints
  simp [h]

lemma orderEndpoints_refl (a : String) : orderEndpoints a a = (a, a) := by
  unfold orderEndpoints
  simp [pyLt_irrefl a]

lemma orderEndpoints_cases (a b : String) :
    orderEndpoints a b = (a, b) ∨ orderEndpoints a b = (b, a) := by
  unfold orderEndpoints
  split
  · right; rfl
  · left; rfl

lemma applyLatency_node1 (e : List JVal) (d : LinkDict) :
    (applyLatency e d).node1 = d.node1 := by
  unfold applyLatency
  split
  · split <;> rfl
  · rfl

lemma applyLatency_node2 (e : List JVal) (d : LinkDict) :
    (applyLatency e d).node2 = d.node2 := by
  unfold applyLatency
  split
  · split <;> rfl
  · rfl

lemma applyBandwidth_node1 (e : List JVal) (d : LinkDict) :
    (applyBandwidth e d).node1 = d.node1 := by
  unfold applyBandwidth
  split
  · split <;> rfl
  · rfl

lemma applyBandwidth_node2 (e : List JVal) (d : LinkDict) :
    (applyBandwidth e d).node2 = d.node2 := by
  unfold applyBandwidth
  split
  · split <;> rfl
  · rfl

lemma applyWeight_node1 (e : List JVal) (d : LinkDict) :
    (applyWeight e d).node1 = d.node1 := by
  unfold applyWeight
  split
  · split <;> rfl
  · rfl

lemma applyWeight_node2 (e : List JVal) (d : LinkDict) :
    (applyWeight e d).node2 = d.node2 := by
  unfold applyWeight
  split
  · split <;> rfl
  · rfl

lemma mkLinkDict_node1 (a b : String) (e : List JVal) :
    (mkLinkDict a b e).node1 = a := by
  unfold mkLinkDict
  rw [applyWeight_node1, applyBandwidth_node1, applyLatency_node1]
  rfl

lemma mkLinkDict_node2 (a b : String) (e : List JVal) :
    (mkLinkDict a b e).node2 = b := by
  unfold mkLinkDict
  rw [applyWeight_node2, applyBandwidth_node2, applyLatency_node2]
  rfl

lemma checkHosts_ok_eq (d d' : LinkDict) (h : checkHosts d = .ok d') : d' = d := by
  unfold checkHosts at h
  split at h
  · exact Except.noConfusion h
  · split at h
    · split at h
      · exact Except.noConfusion h
      · split at h
        · injection h with h
          exact h.symm
        · exact Except.noConfusion h
    · injection h with h
      exact h.symm

lemma checkHosts_not_h (d : LinkDict) (c : Char)
    (hc : d.node1.data.head? = some c) (hne : c ≠ 'h') :
    checkHosts d = .ok d := by
  unfold checkHosts
  cases hd : d.node1.data with
  | nil => rw [hd] at hc; exact Option.noConfusion hc
  | cons c1 cs =>
    rw [hd] at hc
    simp only [List.head?] at hc
    injection hc with hc
    subst hc
    dsimp only
    rw [if_neg hne]

lemma checkHosts_host_host (d : LinkDict) (c2 : Char)
    (h1 : d.node1.data.head? = some 'h')
    (h2 : d.node2.data.head? = some c2) (hne : c2 ≠ 's') :
    checkHosts d = .error ("Hosts should be connected to switches, not " ++ d.node2) := by
  unfold checkHosts
  cases hd : d.node1.data with
  | nil => rw [hd] at h1; exact Option.noConfusion h1
  | cons c1 cs =>
    rw [hd] at h1
    simp only [List.head?] at h1
    injection h1 with h1
    subst h1
    dsimp only
    rw [if_pos rfl]
    cases hd2 : d.node2.data with
    | nil => rw [hd2] at h2; exact Option.noConfusion h2
    | cons d1 ds =>
      rw [hd2] at h2
      simp only [List.head?] at h2
      injection h2 with h2
      subst h2
      dsimp only
      rw [if_neg hne]

/-- C1: for every pair of link tuples (a,b,opts) and (b,a,opts) with identical
optional fields, `parse_links` produces identical canonical link records, and in
the accepted record `node1` is the lexicographically smaller of the two endpoint
identifiers and `node2` the larger (they coincide when the endpoints are equal). -/
theorem C1_links_canonical (a b : String) (e : List JVal) (rest : List RawLink) :
    parse_links (⟨a, b, e⟩ :: rest) = parse_links (⟨b, a, e⟩ :: rest) ∧
    ∀ d : LinkDict, parseOne ⟨a, b, e⟩ = .ok d →
      (pyLt a b = true → d.node1 = a ∧ d.node2 = b) ∧
      (pyLt b a = true → d.node1 = b ∧ d.node2 = a) ∧
      (a = b → d.node1 = a ∧ d.node2 = a) := by
  have hsym : parseOne ⟨a, b, e⟩ = parseOne ⟨b, a, e⟩ := by
    simp only [parseOne]
    rw [orderEndpoints_comm]
  constructor
  · simp only [parse_links]
    rw [hsym]
  · intro d hd
    refine ⟨?_, ?_, ?_⟩
    · intro hlt
      simp only [parseOne, orderEndpoints_lt a b hlt] at hd
      have := checkHosts_ok_eq _ _ hd
      subst this
      exact ⟨mkLinkDict_node1 a b e, mkLinkDict_node2 a b e⟩
    · intro hgt
      simp only [parseOne, orderEndpoints_gt a b hgt] at hd
      have := checkHosts_ok_eq _ _ hd
      subst this
      exact ⟨mkLinkDict_node1 b a e, mkLinkDict_node2 b a e⟩
    · intro heq
      subst heq
      simp only [parseOne, orderEndpoints_refl a] at hd
      have := checkHosts_ok_eq _ _ hd
      subst this
      exact ⟨mkLinkDict_node1 a a e, mkLinkDict_node2 a a e⟩

/-- Witness for C1 at the concrete pair (s1,h1) / (h1,s1). -/
theorem C1_links_canonical_witness :
    parse_links [⟨"s1", "h1", []⟩] = parse_links [⟨"h1", "s1", []⟩] ∧
    (LinkDict.mk "h1" "s1" "0ms" JVal.vNull (JVal.vNum 1)).node1 = "h1" ∧
    (LinkDict.mk "h1" "s1" "0ms" JVal.vNull (JVal.vNum 1)).node2 = "s1" := by
  have hp : parseOne ⟨"s1", "h1", []⟩ =
      .ok (LinkDict.mk "h1" "s1" "0ms" JVal.vNull (JVal.vNum 1)) := by decide
  have h := C1_links_canonical "s1" "h1" [] []
  exact ⟨h.1, ((h.2 _ hp).2.1 (by decide)).1, ((h.2 _ hp).2.1 (by decide)).2⟩

lemma applyLatency_falsy (e : List JVal) (d : LinkDict) (v : JVal)
    (hv : e.get? 0 = some v) (ht : truthy v = false) : applyLatency e d = d := by
  unfold applyLatency
  rw [hv]
  simp [ht]

lemma applyBandwidth_falsy (e : List JVal) (d : LinkDict) (v : JVal)
    (hv : e.get? 1 = some v) (ht : truthy v = false) : applyBandwidth e d = d := by
  unfold applyBandwidth
  rw [hv]
  simp [ht]

lemma applyWeight_falsy (e : List JVal) (d : LinkDict) (v : JVal)
    (hv : e.get? 2 = some v) (ht : truthy v = false) : applyWeight e d = d := by
  unfold applyWeight
  rw [hv]
  simp [ht]

lemma applyWeight_truthy (e : List JVal) (d : LinkDict) (v : JVal)
    (hv : e.get? 2 = some v) (ht : truthy v = true) : (applyWeight e d).weight = v := by
  unfold applyWeight
  rw [hv]
  simp [ht]

lemma applyBandwidth_latency (e : List JVal) (d : LinkDict) :
    (applyBandwidth e d).latency = d.latency := by
  unfold applyBandwidth
  split
  · split <;> rfl
  · rfl

lemma applyWeight_latency (e : List JVal) (d : LinkDict) :
    (applyWeight e d).latency = d.latency := by
  unfold applyWeight
  split
  · split <;> rfl
  · rfl

lemma applyLatency_bandwidth (e : List JVal) (d : LinkDict) :
    (applyLatency e d).bandwidth = d.bandwidth := by
  unfold applyLatency
  split
  · split <;> rfl
  · rfl

lemma applyWeight_bandwidth (e : List JVal) (d : LinkDict) :
    (applyWeight e d).bandwidth = d.bandwidth := by
  unfold applyWeight
  split
  · split <;> rfl
  · rfl

lemma applyLatency_weight (e : List JVal) (d : LinkDict) :
    (applyLatency e d).weight = d.weight := by
  unfold applyLatency
  split
  · split <;> rfl
  · rfl

lemma applyBandwidth_weight (e : List JVal) (d : LinkDict) :
    (applyBandwidth e d).weight = d.weight := by
  unfold applyBandwidth
  split
  · split <;> rfl
  · rfl

/-- C7: a present-but-falsy optional field of a link tuple is treated as not
specified: the canonical record keeps latency "0ms", bandwidth unset (None)
and weight 1 respectively; a truthy weight is taken even when latency was
skipped with an empty placeholder. -/
theorem C7_falsy_defaults (raw : RawLink) (d : LinkDict)
    (hd : parseOne raw = .ok d) :
    (∀ v, raw.extra.get? 0 = some v → truthy v = false → d.latency = "0ms") ∧
    (∀ v, raw.extra.get? 1 = some v → truthy v = false → d.bandwidth = JVal.vNull) ∧
    (∀ v, raw.extra.get? 2 = some v → truthy v = false → d.weight = JVal.vNum 1) ∧
    (∀ v, raw.extra.get? 2 = some v → truthy v = true → d.weight = v) := by
  simp only [parseOne] at hd
  have hde := checkHosts_ok_eq _ _ hd
  subst hde
  unfold mkLinkDict
  refine ⟨?_, ?_, ?_, ?_⟩
  · intro v hv ht
    rw [applyWeight_latency, applyBandwidth_latency, applyLatency_falsy _ _ v hv ht]
    rfl
  · intro v hv ht
    rw [applyWeight_bandwidth, applyBandwidth_falsy _ _ v hv ht, applyLatency_bandwidth]
    rfl
  · intro v hv ht
    rw [applyWeight_falsy _ _ v hv ht, applyBandwidth_weight, applyLatency_weight]
    rfl
  · intro v hv ht
    rw [applyWeight_truthy _ _ v hv ht]

/-- Witness for C7: weight 5 set while latency is skipped with "" and
bandwidth with None. -/
theorem C7_falsy_defaults_witness :
    parseOne ⟨"h1", "s1", [JVal.vStr "", JVal.vNull, JVal.vNum 5]⟩ =
      .ok ⟨"h1", "s1", "0ms", JVal.vNull, JVal.vNum 5⟩ ∧
    (LinkDict.mk "h1" "s1" "0ms" JVal.vNull (JVal.vNum 5)).latency = "0ms" ∧
    (LinkDict.mk "h1" "s1" "0ms" JVal.vNull (JVal.vNum 5)).bandwidth = JVal.vNull ∧
    (LinkDict.mk "h1" "s1" "0ms" JVal.vNull (JVal.vNum 5)).weight = JVal.vNum 5 := by
  have hp : parseOne ⟨"h1", "s1", [JVal.vStr "", JVal.vNull, JVal.vNum 5]⟩ =
      .ok ⟨"h1", "s1", "0ms", JVal.vNull, JVal.vNum 5⟩ := by decide
  have h := C7_falsy_defaults _ _ hp
  exact ⟨hp, h.1 (JVal.vStr "") (by decide) (by decide),
    h.2.1 JVal.vNull (by decide) (by decide),
    h.2.2.2 (JVal.vNum 5) (by decide) (by decide)⟩

/-- C9: the endpoint-kind validation of parse_links fires only when the
lexicographically smaller endpoint begins with the character h; a link whose
smaller endpoint has some other first character is accepted with no check on
the other endpoint. -/
theorem C9_no_kind_check (raw : RawLink) (c : Char)
    (hc : (orderEndpoints raw.n0 raw.n1).1.data.head? = some c) (hne : c ≠ 'h') :
    parseOne raw = .ok (mkLinkDict (orderEndpoints raw.n0 raw.n1).1
      (orderEndpoints raw.n0 raw.n1).2 raw.extra) := by
  simp only [parseOne]
  apply checkHosts_not_h _ c _ hne
  rw [mkLinkDict_node1]
  exact hc

/-- Witness for C9: the tuple (a1, h2) has a host-typed second endpoint but
a non-host smaller endpoint, and is accepted. -/
theorem C9_no_kind_check_witness :
    (orderEndpoints "a1" "h2").1.data.head? = some 'a' ∧
    parseOne ⟨"a1", "h2", []⟩ =
      .ok (mkLinkDict (orderEndpoints "a1" "h2").1 (orderEndpoints "a1" "h2").2 []) :=
  ⟨by decide, C9_no_kind_check ⟨"a1", "h2", []⟩ 'a' (by decide) (by decide)⟩

/-- A switch entry of `topology.switches`: its name and the optional
`cli_input` command-file path of its configuration dict. -/
structure SwitchConf where
  name : String
  cli_input : Option String
deriving DecidableEq, Repr

/-- The `topology` block of the configuration json (hosts, switches, links). -/
structure TopologyBlock where
  hosts : List String
  switches : List SwitchConf
  links : List RawLink
deriving DecidableEq, Repr

/-- The configuration document, reduced to the field the verified claims
inspect: the optional `topology` block. -/
structure Conf where
  topology : Option TopologyBlock
deriving DecidableEq, Repr

/-- Stand-in for the Python interpolation of the whole configuration dict
into the missing-topology message; no verified claim inspects this suffix. -/
def confRepr (_ : Conf) : String := "<configuration>"

/-- The topology-dependent state built by `AppRunner.__init__`. -/
structure InitState where
  hosts : List String
  switches : List SwitchConf
  links : List LinkDict
deriving DecidableEq, Repr

/-- The topology-loading part of `AppRunner.__init__` (lines 110-116):
reject a missing (or falsy) `topology` block with the message of line 112,
then parse the links; a parse failure propagates. -/
def appRunnerInit (conf : Conf) : Except String InitState :=
  match conf.topology with
  | none => .error ("topology to create is not defined in " ++ confRepr conf)
  | some tb =>
    match parse_links tb.links with
    | .error e => .error e
    | .ok ls => .ok ⟨tb.hosts, tb.switches, ls⟩

/-- Observable milestones of `AppRunner.run_app` (lines 205-232). An event
is recorded when the corresponding step completes. -/
inductive Event where
  | netStart
  | programHosts
  | programSwitches
  | saveTopology
  | cliSession
  | netStop
deriving DecidableEq, BEq, Repr

/-- Environment of one run: which of the fallible steps of `run_app` raises
a Python exception, and whether the CLI session is requested
(`self.cli_enabled or self.conf.get(cli, False)`, line 224). -/
structure RunFlags where
  hostsRaise : Bool
  switchesRaise : Bool
  saveRaise : Bool
  cliRaise : Bool
  cliEnabled : Bool
  confCli : Bool
deriving DecidableEq, Repr

/-- `AppRunner.run_app` (lines 205-232) as an event trace. The method is a
plain sequence with no try/finally: an exception in any step propagates
immediately (second component `true`) and the following steps, including
`self.net.stop()`, are skipped. -/
def run_app (f : RunFlags) : List Event × Bool :=
  if f.hostsRaise then
    ([Event.netStart], true)
  else if f.switchesRaise then
    ([Event.netStart, Event.programHosts], true)
  else if f.saveRaise then
    ([Event.netStart, Event.programHosts, Event.programSwitches], true)
  else if f.cliEnabled || f.confCli then
    if f.cliRaise then
      ([Event.netStart, Event.programHosts, Event.programSwitches,
        Event.saveTopology], true)
    else
      ([Event.netStart, Event.programHosts, Event.programSwitches,
        Event.saveTopology, Event.cliSession, Event.netStop], false)
  else
    ([Event.netStart, Event.programHosts, Event.programSwitches,
      Event.saveTopology, Event.netStop], false)

/-- `main` restricted to the construction/run pipeline: a failing
`AppRunner.__init__` propagates before any network is started. -/
def p4run_main (conf : Conf) (f : RunFlags) : List Event × Bool :=
  match appRunnerInit conf with
  | .error _ => ([], true)
  | .ok _ => run_app f

lemma parse_links_error_of_mem (links : List RawLink) (l : RawLink)
    (hl : l ∈ links) (msg : String) (he : parseOne l = .error msg) :
    ∃ m, parse_links links = .error m := by
  induction links with
  | nil => cases hl
  | cons x xs ih =>
    cases hl with
    | head => exact ⟨msg, by simp [parse_links, he]⟩
    | tail _ hmem =>
      cases hx : parseOne x with
      | error m => exact ⟨m, by simp [parse_links, hx]⟩
      | ok d =>
        obtain ⟨m, hm⟩ := ih hmem
        exact ⟨m, by simp [parse_links, hx, hm]⟩

/-- C4: a link tuple whose two endpoints are both host-typed (first
character h) makes link parsing fail with the assertion message naming the
offending link via its (larger) host endpoint, and the runner aborts during
construction, before any network is started. -/
theorem C4_host_host_link (raw : RawLink) (conf : Conf) (f : RunFlags)
    (tb : TopologyBlock)
    (h0 : raw.n0.data.head? = some 'h') (h1 : raw.n1.data.head? = some 'h')
    (htp : conf.topology = some tb) (hmem : raw ∈ tb.links) :
    parseOne raw = .error ("Hosts should be connected to switches, not "
      ++ (orderEndpoints raw.n0 raw.n1).2) ∧
    (∃ msg, appRunnerInit conf = .error msg) ∧
    Event.netStart ∉ (p4run_main conf f).1 := by
  have hn1 : (mkLinkDict (orderEndpoints raw.n0 raw.n1).1
      (orderEndpoints raw.n0 raw.n1).2 raw.extra).node1.data.head? = some 'h' := by
    rw [mkLinkDict_node1]
    rcases orderEndpoints_cases raw.n0 raw.n1 with h | h <;> rw [h]
    · exact h0
    · exact h1
  have hn2 : (mkLinkDict (orderEndpoints raw.n0 raw.n1).1
      (orderEndpoints raw.n0 raw.n1).2 raw.extra).node2.data.head? = some 'h' := by
    rw [mkLinkDict_node2]
    rcases orderEndpoints_cases raw.n0 raw.n1 with h | h <;> rw [h]
    · exact h1
    · exact h0
  have herr := checkHosts_host_host _ 'h' hn1 hn2 (by decide)
  rw [mkLinkDict_node2] at herr
  have hparse : parseOne raw = .error ("Hosts should be connected to switches, not "
      ++ (orderEndpoints raw.n0 raw.n1).2) := by
    simp only [parseOne]
    exact herr
  obtain ⟨m, hm⟩ := parse_links_error_of_mem tb.links raw hmem _ hparse
  refine ⟨hparse, ⟨m, ?_⟩, ?_⟩
  · simp [appRunnerInit, htp, hm]
  · simp [p4run_main, appRunnerInit, htp, hm]

/-- Witness for C4 at the topology whose only link is (h1, h2). -/
theorem C4_host_host_link_witness :
    parseOne ⟨"h1", "h2", []⟩ = .error ("Hosts should be connected to switches, not "
      ++ (orderEndpoints "h1" "h2").2) ∧
    (∃ msg, appRunnerInit ⟨some ⟨["h1", "h2"], [], [⟨"h1", "h2", []⟩]⟩⟩ = .error msg) ∧
    Event.netStart ∉ (p4run_main ⟨some ⟨["h1", "h2"], [], [⟨"h1", "h2", []⟩]⟩⟩
      ⟨false, false, false, false, true, false⟩).1 :=
  C4_host_host_link ⟨"h1", "h2", []⟩ _ _ _ (by decide) (by decide) rfl
    (by simp)

/-- C6: a configuration document lacking a topology block makes construction
fail with an error whose message starts with the word topology, before any
network is started. -/
theorem C6_missing_topology (conf : Conf) (f : RunFlags)
    (h : conf.topology = none) :
    (∃ msg rest, appRunnerInit conf = .error msg ∧ msg = "topology" ++ rest) ∧
    Event.netStart ∉ (p4run_main conf f).1 := by
  have hinit : appRunnerInit conf =
      .error ("topology to create is not defined in " ++ confRepr conf) := by
    simp [appRunnerInit, h]
  constructor
  · refine ⟨_, " to create is not defined in " ++ confRepr conf, hinit, ?_⟩
    rw [← String.append_assoc]
    have hpre : "topology" ++ " to create is not defined in " =
        "topology to create is not defined in " := by decide
    rw [hpre]
  · simp [p4run_main, hinit]

/-- Witness for C6 at the empty configuration document. -/
theorem C6_missing_topology_witness :
    (∃ msg rest, appRunnerInit ⟨none⟩ = .error msg ∧ msg = "topology" ++ rest) ∧
    Event.netStart ∉ (p4run_main ⟨none⟩ ⟨false, false, false, false, true, false⟩).1 :=
  C6_missing_topology ⟨none⟩ ⟨false, false, false, false, true, false⟩ rfl

/-- C8 counterexample: in a run whose host-provisioning step raises, the
claimed unconditional stop does not happen: netStop is not in the trace. -/
theorem C8_stop_not_reached :
    Event.netStop ∉ (run_app ⟨true, false, false, false, true, false⟩).1 := by
  simp [run_app]

/-- C8 (amended): run_app reaches the stop operation exactly when host
provisioning, switch provisioning, topology saving and, when a session is
requested, the session itself all complete without raising; an exception in
any earlier step propagates and the stop operation is skipped. -/
theorem C8_stop_iff_no_raise (f : RunFlags) :
    (run_app f).1.contains Event.netStop =
      (!f.hostsRaise && !f.switchesRaise && !f.saveRaise &&
        (!f.cliRaise || !(f.cliEnabled || f.confCli))) := by
  rcases f with ⟨a, b, c, d, e, g⟩
  cases a <;> cases b <;> cases c <;> cases d <;> cases e <;> cases g <;> decide

/-- Per-host facts of `self.topo.hosts_info` (consumed at lines 316-329):
attached switch, assigned 32-bit address value, prefix length, MAC. The
live address `h.IP()` of a started host equals the assigned address (both
come from the same AppTopo assignment, outside this tree); commands render
addresses in dotted-quad form. -/
structure HostInfo where
  sw : String
  ip : Nat
  mask : Nat
  mac : String
deriving DecidableEq, Repr

/-- The topology facts consumed by `program_hosts`: the host list
`self.topo.hosts()` and the per-host info map `self.topo.hosts_info`. -/
structure TopoModel where
  hosts : List String
  hosts_info : String → HostInfo

/-- Live network fact used by `program_hosts`: the MAC of the switch-facing
peer interface of the host first link (`sw_iface.mac`, lines 299 and 310). -/
structure LiveNet where
  swMac : String → String

/-- Dotted-quad rendering of a 32-bit address value. -/
def dottedQuad (ip : Nat) : String :=
  toString (ip / 2 ^ 24 % 256) ++ "." ++ toString (ip / 2 ^ 16 % 256) ++ "."
    ++ toString (ip / 2 ^ 8 % 256) ++ "." ++ toString (ip % 256)

/-- The network address of `ip_interface(ip/mask).network`: the address
with its host bits cleared. -/
def networkAddr (ip mask : Nat) : Nat :=
  ip / 2 ^ (32 - mask) * 2 ^ (32 - mask)

/-- `ip_interface(...).network.compressed` (line 327): the canonical
network/prefix string on which the subnet comparison is made. -/
def networkCompressed (ip mask : Nat) : String :=
  dottedQuad (networkAddr ip mask) ++ "/" ++ toString mask

/-- The subnet-mate loop of `program_hosts` (lines 318-327): every other
host, in host order, that is skipped unless it differs from the host being
provisioned, hangs off the same switch, and its CIDR value denotes the same
network. -/
def seedMates (t : TopoModel) (host_name : String) : List String :=
  t.hosts.filterMap (fun other =>
    if other = host_name then none
    else if (t.hosts_info other).sw = (t.hosts_info host_name).sw then
      if networkCompressed (t.hosts_info host_name).ip (t.hosts_info host_name).mask =
          networkCompressed (t.hosts_info other).ip (t.hosts_info other).mask then
        some other
      else none
    else none)

/-- The static ARP (ip, mac) entries the loop installs on `host_name`
(lines 328-329). -/
def seedEntries (t : TopoModel) (host_name : String) : List (String × String) :=
  (seedMates t host_name).map
    (fun o => (dottedQuad (t.hosts_info o).ip, (t.hosts_info o).mac))

/-- Python `int(s)` on the digit strings that the h<n> naming convention
produces; any other suffix raises ValueError, modelled as `none`. -/
def parseDecimal (s : String) : Option Nat :=
  if !s.data.isEmpty && s.data.all Char.isDigit then
    some (s.data.foldl (fun acc c => acc * 10 + (c.toNat - 48)) 0)
  else none

/-- Shell-equivalent commands `program_hosts` issues inside a host
namespace (lines 310-313 and 328-329). -/
inductive Cmd where
  | arpSet (iface ip mac : String)
  | ethtoolOff (iface : String)
  | routeAdd (ip iface : String)
  | defaultRoute (ip : String)
deriving DecidableEq, Repr

/-- One iteration of the `program_hosts` loop (lines 294-329) for a single
host: `host_id = int(host_name[1:])`, gateway `10.0.<host_id>.254`,
interface renamed to `<host>-eth0`, gateway ARP entry, offload disabling,
route and default route, then the subnet-mate ARP pre-seeding. -/
def program_host (t : TopoModel) (net : LiveNet) (host_name : String) :
    Except String (List Cmd) :=
  match parseDecimal (String.drop host_name 1) with
  | none => .error ("invalid literal for int() with base 10: "
      ++ String.drop host_name 1)
  | some host_id =>
    .ok ([Cmd.arpSet (host_name ++ "-eth0") ("10.0." ++ toString host_id ++ ".254")
            (net.swMac host_name),
          Cmd.ethtoolOff (host_name ++ "-eth0"),
          Cmd.routeAdd ("10.0." ++ toString host_id ++ ".254") (host_name ++ "-eth0"),
          Cmd.defaultRoute ("10.0." ++ toString host_id ++ ".254")]
      ++ (seedEntries t host_name).map
          (fun e => Cmd.arpSet (host_name ++ "-eth0") e.1 e.2))

/-- The loop of `program_hosts` over `self.topo.hosts()`; an exception in
one iteration propagates. -/
def program_hosts_list (t : TopoModel) (net : LiveNet) :
    List String → Except String (List (String × List Cmd))
  | [] => .ok []
  | h :: hs =>
    match program_host t net h with
    | .error e => .error e
    | .ok cmds =>
      match program_hosts_list t net hs with
      | .error e => .error e
      | .ok rest => .ok ((h, cmds) :: rest)

/-- `AppRunner.program_hosts` (lines 287-329). -/
def program_hosts (t : TopoModel) (net : LiveNet) :
    Except String (List (String × List Cmd)) :=
  program_hosts_list t net t.hosts

lemma mem_seedMates (t : TopoModel) (h o : String) :
    o ∈ seedMates t h ↔
      o ∈ t.hosts ∧ o ≠ h ∧ (t.hosts_info o).sw = (t.hosts_info h).sw ∧
      networkCompressed (t.hosts_info h).ip (t.hosts_info h).mask =
        networkCompressed (t.hosts_info o).ip (t.hosts_info o).mask := by
  simp only [seedMates, List.mem_filterMap]
  constructor
  · rintro ⟨x, hx, hfx⟩
    by_cases h1 : x = h
    · rw [if_pos h1] at hfx
      exact Option.noConfusion hfx
    · rw [if_neg h1] at hfx
      by_cases h2 : (t.hosts_info x).sw = (t.hosts_info h).sw
      · rw [if_pos h2] at hfx
        by_cases h3 : networkCompressed (t.hosts_info h).ip (t.hosts_info h).mask =
            networkCompressed (t.hosts_info x).ip (t.hosts_info x).mask
        · rw [if_pos h3] at hfx
          injection hfx with hfx
          subst hfx
          exact ⟨hx, h1, h2, h3⟩
        · rw [if_neg h3] at hfx
          exact Option.noConfusion hfx
      · rw [if_neg h2] at hfx
        exact Option.noConfusion hfx
  · rintro ⟨ho, hne, hsw, hnet⟩
    exact ⟨o, ho, by rw [if_neg hne, if_pos hsw, if_pos hnet]⟩

/-- C2: two distinct hosts attached to the same switch receive mutual
static ARP entries (each mapping the other real IP to its real MAC) exactly
when their IP/mask CIDR values denote equal networks; when the networks
differ, and host addresses are pairwise distinct, no such entry is
installed for that pair. -/
theorem C2_subnet_mates (t : TopoModel) (a b : String)
    (ha : a ∈ t.hosts) (hb : b ∈ t.hosts) (hne : a ≠ b)
    (hsw : (t.hosts_info a).sw = (t.hosts_info b).sw)
    (hinj : ∀ c ∈ t.hosts, c ≠ b →
      dottedQuad (t.hosts_info c).ip ≠ dottedQuad (t.hosts_info b).ip) :
    (networkCompressed (t.hosts_info a).ip (t.hosts_info a).mask =
        networkCompressed (t.hosts_info b).ip (t.hosts_info b).mask →
      (dottedQuad (t.hosts_info b).ip, (t.hosts_info b).mac) ∈ seedEntries t a ∧
      (dottedQuad (t.hosts_info a).ip, (t.hosts_info a).mac) ∈ seedEntries t b) ∧
    (networkCompressed (t.hosts_info a).ip (t.hosts_info a).mask ≠
        networkCompressed (t.hosts_info b).ip (t.hosts_info b).mask →
      (dottedQuad (t.hosts_info b).ip, (t.hosts_info b).mac) ∉ seedEntries t a) := by
  constructor
  · intro hnet
    constructor
    · have hm : b ∈ seedMates t a :=
        (mem_seedMates t a b).2 ⟨hb, hne.symm, hsw.symm, hnet⟩
      simp only [seedEntries, List.mem_map]
      exact ⟨b, hm, rfl⟩
    · have hm : a ∈ seedMates t b :=
        (mem_seedMates t b a).2 ⟨ha, hne, hsw, hnet.symm⟩
      simp only [seedEntries, List.mem_map]
      exact ⟨a, hm, rfl⟩
  · intro hnet hmem
    simp only [seedEntries, List.mem_map] at hmem
    obtain ⟨o, ho, heq⟩ := hmem
    have hc := (mem_seedMates t a o).1 ho
    by_cases hob : o = b
    · subst hob
      exact hnet hc.2.2.2
    · exact hinj o hc.1 hob (congrArg Prod.fst heq)

/-- Witness for C2: h1, h2 at 10.0.1.1/24 and 10.0.1.2/24 on switch s1 are
mutually seeded. -/
theorem C2_subnet_mates_witness :
    (dottedQuad 167772418, "00:02") ∈ seedEntries
      ⟨["h1", "h2"], fun n => if n = "h1" then ⟨"s1", 167772417, 24, "00:01"⟩
        else ⟨"s1", 167772418, 24, "00:02"⟩⟩ "h1" ∧
    (dottedQuad 167772417, "00:01") ∈ seedEntries
      ⟨["h1", "h2"], fun n => if n = "h1" then ⟨"s1", 167772417, 24, "00:01"⟩
        else ⟨"s1", 167772418, 24, "00:02"⟩⟩ "h2" :=
  (C2_subnet_mates
    ⟨["h1", "h2"], fun n => if n = "h1" then ⟨"s1", 167772417, 24, "00:01"⟩
      else ⟨"s1", 167772418, 24, "00:02"⟩⟩
    "h1" "h2" (by decide) (by decide) (by decide) (by decide) (by decide)).1
    (by decide)

/-- C10: the provisioning loop always skips the host being provisioned:
seeded mates are strictly distinct hosts on the same switch, and, with
pairwise-distinct host addresses, no host installs an ARP entry for its own
IP/MAC on itself. -/
theorem C10_self_skip (t : TopoModel) (h : String)
    (hinj : ∀ c ∈ t.hosts, c ≠ h →
      dottedQuad (t.hosts_info c).ip ≠ dottedQuad (t.hosts_info h).ip) :
    h ∉ seedMates t h ∧
    (∀ o ∈ seedMates t h, o ≠ h ∧ (t.hosts_info o).sw = (t.hosts_info h).sw) ∧
    (dottedQuad (t.hosts_info h).ip, (t.hosts_info h).mac) ∉ seedEntries t h := by
  refine ⟨?_, ?_, ?_⟩
  · intro hmem
    exact ((mem_seedMates t h h).1 hmem).2.1 rfl
  · intro o hmem
    have hc := (mem_seedMates t h o).1 hmem
    exact ⟨hc.2.1, hc.2.2.1⟩
  · intro hmem
    simp only [seedEntries, List.mem_map] at hmem
    obtain ⟨o, ho, heq⟩ := hmem
    have hc := (mem_seedMates t h o).1 ho
    exact hinj o hc.1 hc.2.1 (congrArg Prod.fst heq)

/-- Witness for C10 on the two-host topology. -/
theorem C10_self_skip_witness :
    "h1" ∉ seedMates
      ⟨["h1", "h2"], fun n => if n = "h1" then ⟨"s1", 167772417, 24, "00:01"⟩
        else ⟨"s1", 167772418, 24, "00:02"⟩⟩ "h1" ∧
    (∀ o ∈ seedMates
      ⟨["h1", "h2"], fun n => if n = "h1" then ⟨"s1", 167772417, 24, "00:01"⟩
        else ⟨"s1", 167772418, 24, "00:02"⟩⟩ "h1",
      o ≠ "h1" ∧
      ((TopoModel.mk ["h1", "h2"] fun n => if n = "h1" then ⟨"s1", 167772417, 24, "00:01"⟩
        else ⟨"s1", 167772418, 24, "00:02"⟩).hosts_info o).sw =
      ((TopoModel.mk ["h1", "h2"] fun n => if n = "h1" then ⟨"s1", 167772417, 24, "00:01"⟩
        else ⟨"s1", 167772418, 24, "00:02"⟩).hosts_info "h1").sw) ∧
    (dottedQuad 167772417, "00:01") ∉ seedEntries
      ⟨["h1", "h2"], fun n => if n = "h1" then ⟨"s1", 167772417, 24, "00:01"⟩
        else ⟨"s1", 167772418, 24, "00:02"⟩⟩ "h1" :=
  C10_self_skip
    ⟨["h1", "h2"], fun n => if n = "h1" then ⟨"s1", 167772417, 24, "00:01"⟩
      else ⟨"s1", 167772418, 24, "00:02"⟩⟩ "h1" (by decide)

/-- C3: for every host whose name has a numeric suffix after its first
character, the gateway used for the static ARP entry, the added route and
the default route is exactly 10.0.<suffix>.254, whatever the topology and
live network state: the scheme is independent of the actual addressing. -/
theorem C3_gateway_scheme (t : TopoModel) (net : LiveNet) (h : String) (n : Nat)
    (hn : parseDecimal (String.drop h 1) = some n) :
    ∃ cmds, program_host t net h = .ok cmds ∧
      Cmd.arpSet (h ++ "-eth0") ("10.0." ++ toString n ++ ".254")
        (net.swMac h) ∈ cmds ∧
      Cmd.routeAdd ("10.0." ++ toString n ++ ".254") (h ++ "-eth0") ∈ cmds ∧
      Cmd.defaultRoute ("10.0." ++ toString n ++ ".254") ∈ cmds := by
  unfold program_host
  rw [hn]
  refine ⟨_, rfl, ?_, ?_, ?_⟩ <;> simp

/-- Witness for C3: host h7 gets gateway 10.0.7.254 on a one-host topology. -/
theorem C3_gateway_scheme_witness :
    parseDecimal (String.drop "h7" 1) = some 7 ∧
    (∃ cmds, program_host ⟨["h7"], fun _ => ⟨"s1", 167772161, 24, "00:aa"⟩⟩
        ⟨fun _ => "00:bb"⟩ "h7" = .ok cmds ∧
      Cmd.arpSet ("h7" ++ "-eth0") ("10.0." ++ toString 7 ++ ".254")
        (LiveNet.swMac ⟨fun _ => "00:bb"⟩ "h7") ∈ cmds ∧
      Cmd.routeAdd ("10.0." ++ toString 7 ++ ".254") ("h7" ++ "-eth0") ∈ cmds ∧
      Cmd.defaultRoute ("10.0." ++ toString 7 ++ ".254") ∈ cmds) :=
  ⟨by decide, C3_gateway_scheme ⟨["h7"], fun _ => ⟨"s1", 167772161, 24, "00:aa"⟩⟩
    ⟨fun _ => "00:bb"⟩ "h7" 7 (by decide)⟩

/-- Modelled from the spec: `read_entries` lives in `p4utils.utils.utils`,
which is not under this tree; per the spec it reads the per-switch command
file into the ordered sequence of control-plane entries, in file order. The
file system is modelled as a map from path to entry lines. -/
def read_entries (fs : String → List String) (path : String) : List String :=
  fs path

/-- Modelled from the spec: `add_entries` lives in `p4utils.utils.utils`,
which is not under this tree; per the spec it applies each entry, in
sequence order, against the switch control-plane endpoint. The result is
the ordered sequence of entries the switch endpoint observes. -/
def add_entries (entries : List String) : List String :=
  entries.foldl (fun observed e => observed ++ [e]) []

/-- `AppRunner.program_switches` (lines 264-285): every switch whose dict
declares a `cli_input` command file has the file entries applied to its
endpoint; a switch with no command file is skipped (`continue`, line 274).
Result: for each configured switch, the entry sequence its endpoint
observes. -/
def program_switches (fs : String → List String) (switches : List SwitchConf) :
    List (String × List String) :=
  switches.filterMap (fun sw =>
    match sw.cli_input with
    | none => none
    | some path => some (sw.name, add_entries (read_entries fs path)))

lemma foldl_snoc (es acc : List String) :
    es.foldl (fun observed e => observed ++ [e]) acc = acc ++ es := by
  induction es generalizing acc with
  | nil => simp
  | cons e es ih => simp [List.foldl_cons, ih]

lemma add_entries_id (es : List String) : add_entries es = es := by
  unfold add_entries
  rw [foldl_snoc]
  simp

/-- C5: for every switch that declares a command file, the control-plane
entries applied at that switch endpoint are exactly the entries read from
the file, in file order, and nothing else. -/
theorem C5_file_order (fs : String → List String) (switches : List SwitchConf)
    (sw : SwitchConf) (path : String)
    (hmem : sw ∈ switches) (hcli : sw.cli_input = some path) :
    (sw.name, fs path) ∈ program_switches fs switches ∧
    add_entries (read_entries fs path) = fs path := by
  have hid : add_entries (read_entries fs path) = fs path := add_entries_id _
  refine ⟨?_, hid⟩
  simp only [program_switches, List.mem_filterMap]
  refine ⟨sw, hmem, ?_⟩
  rw [hcli]
  dsimp only
  rw [hid]

/-- Witness for C5 at a command file holding the entries A, B, C. -/
theorem C5_file_order_witness :
    ("s1", ["table_add A", "table_add B", "mc_mgrp_create C"]) ∈
      program_switches (fun _ => ["table_add A", "table_add B", "mc_mgrp_create C"])
        [⟨"s1", some "s1-commands.txt"⟩] ∧
    add_entries (read_entries
        (fun _ => ["table_add A", "table_add B", "mc_mgrp_create C"])
        "s1-commands.txt") =
      ["table_add A", "table_add B", "mc_mgrp_create C"] :=
  C5_file_order (fun _ => ["table_add A", "table_add B", "mc_mgrp_create C"])
    [⟨"s1", some "s1-commands.txt"⟩] ⟨"s1", some "s1-commands.txt"⟩
    "s1-commands.txt" (by simp) rfl
